import Mathlib

/-
Shallow embedding of the A3C actor-learner training code
(actor_learner_thread.py together with its coordinator main.py):
rollout collection, discounted-return computation, loss construction,
gradient clipping, the outer-loop guard and interrupt handling.
Rewards, probabilities and gradients are modelled as exact rationals;
the external collaborators (environment, network forward pass, autodiff
engine) are oracles supplied as function parameters, exactly at the
interfaces the Python code calls them.
-/

namespace A3C

/-! ### Constants fixed in ActorLearnerThread.__init__ (lines 11-24) -/

/-- self.t_max = 10 -/
def t_max : Nat := 10

/-- self.skip_num = 4 -/
def skip_num : Nat := 4

/-- self.eps = 1e-10 -/
def eps : ℚ := 1e-10

/-- self.beta = 0.01 -/
def beta : ℚ := 1/100

/-- self.gamma = 0.99 -/
def gamma : ℚ := 99/100

/-- self.grad_clip = 40 -/
def grad_clip : ℚ := 40

/-- np.clip / tf.clip_by_value: clamp x into the interval from lo to hi. -/
def clipValue (lo hi x : ℚ) : ℚ := min (max x lo) hi

/-! ### Rollout (ActorLearnerThread.play_game, lines 200-231)

The environment and the action sampler are external collaborators; they
are modelled as oracles indexed by the number of outer steps taken since
the environment reset: endAfter k is is_end_state() when k outer steps
have been recorded, subReward k j is the reward of the j-th of the
skip_num environment.act calls inside outer step k, and act k is the
action np.random.choice sampled at outer step k. -/

structure EnvRollout where
  endAfter : Nat → Bool
  subReward : Nat → Nat → ℚ
  act : Nat → Nat

/-- One history record, as appended on line 218-219.  The state is kept
abstract as the index of the stacked observation used at that step. -/
structure HistoryRecord where
  state : Nat
  action : Nat
  reward : ℚ
deriving DecidableEq

/-- Lines 214-216: the amount the running reward variable grows by during
one outer step: the sum over the skip_num sub-steps of the intermediate
reward clamped into the interval from -1 to 1. -/
def outerStepRewardAdd (env : EnvRollout) (k : Nat) : ℚ :=
  ((List.range skip_num).map (fun j => clipValue (-1) 1 (env.subReward k j))).sum

/-- The while-loop of play_game (lines 208-223).  k is the local step
difference t - t_start (0 at entry, +1 per recorded step); reward is the
running reward variable, which the code initialises once before the loop
(line 206) and never resets inside it (line 213 reads reward += 0.0).
The fuel argument only makes the recursion structural; the initial call
passes t_max + 1, which a lemma below shows is never exhausted before
the check k = t_max fires. -/
def playGameLoop (env : EnvRollout) : Nat → Nat → ℚ → List HistoryRecord
  | 0, _, _ => []
  | fuel+1, k, reward =>
    if env.endAfter k then []
    else if k = t_max then []
    else
      let reward' := reward + outerStepRewardAdd env k
      { state := k, action := env.act k, reward := reward' } ::
        playGameLoop env fuel (k+1) reward'

/-- play_game (lines 200-231): the history, and last_state, which is
None when is_end_state() holds after the loop (lines 225-228) and
otherwise the stacked observation reached after the last step (indexed
here by the number of recorded steps). -/
def play_game (env : EnvRollout) : List HistoryRecord × Option Nat :=
  (playGameLoop env (t_max+1) 0 0,
   if env.endAfter (playGameLoop env (t_max+1) 0 0).length then none
   else some (playGameLoop env (t_max+1) 0 0).length)

/-! ### Outer-loop guard (ActorLearnerThread.run, lines 139-140)

The while condition is
  tf.train.global_step(...) < self.t_max and self.stop == False.
Note that the bound compared against is self.t_max = 10, the rollout
horizon from __init__; the externally configured maximum
FLAGS.global_t_max = 1e9 (main.py line 23) is passed by main.py line
116-117 into the constructor parameter thread_id and is never used in
this comparison. -/
def loopGuard (globalStep : Nat) (stop : Bool) : Bool :=
  decide (globalStep < t_max) && !stop

/-- The value of the Max steps flag, gflags.DEFINE_integer
('global_t_max', 1e9, 'Max steps') in main.py line 23. -/
def global_t_max : Nat := 1000000000

/-! ### Gradient clipping (prepare_apply_gradients, lines 129-134) -/

/-- Line 130: every accumulated gradient element is clamped into the
interval from -grad_clip to grad_clip before being handed to
apply_gradients.  A tensor is modelled by its list of elements. -/
def clipped_grads (grads : List ℚ) : List ℚ :=
  grads.map (clipValue (-grad_clip) grad_clip)

/-! ### Rollout lemmas -/

lemma playGameLoop_length_le (env : EnvRollout) :
    ∀ fuel k r, k ≤ t_max → (playGameLoop env fuel k r).length ≤ t_max - k := by
  intro fuel
  induction fuel with
  | zero => intro k r _; simp [playGameLoop]
  | succ n ih =>
    intro k r hk
    simp only [playGameLoop]
    by_cases h1 : env.endAfter k
    · simp [h1]
    · by_cases h2 : k = t_max
      · simp [h1, h2]
      · have hk1 : k + 1 ≤ t_max := by
          rcases lt_or_eq_of_le hk with h | h
          · omega
          · exact absurd h h2
        have := ih (k+1) (r + outerStepRewardAdd env k) hk1
        simp only [h1, h2, if_false, Bool.false_eq_true, List.length_cons]
        omega

lemma playGameLoop_short_end (env : EnvRollout) :
    ∀ fuel k r, (playGameLoop env fuel k r).length < t_max - k →
      t_max - k < fuel → env.endAfter (k + (playGameLoop env fuel k r).length) = true := by
  intro fuel
  induction fuel with
  | zero => intro k r _ h2; omega
  | succ n ih =>
    intro k r h1 h2
    simp only [playGameLoop] at *
    by_cases hEnd : env.endAfter k
    · simp [hEnd]
    · by_cases hMax : k = t_max
      · simp [hEnd, hMax] at h1
      · simp only [hEnd, hMax, if_false, Bool.false_eq_true, List.length_cons] at h1 ⊢
        have hrec := ih (k+1) (r + outerStepRewardAdd env k) (by omega) (by omega)
        have harith : k + ((playGameLoop env n (k+1)
            (r + outerStepRewardAdd env k)).length + 1)
            = (k+1) + (playGameLoop env n (k+1)
            (r + outerStepRewardAdd env k)).length := by omega
        rw [harith]
        exact hrec

/-! ### Claim C8 -/

/-- C8: a rollout segment records at most t_max = 10 steps: the local
counter difference t - t_start, which equals the history length at loop
exit, never exceeds t_max; and whenever the segment is shorter than
t_max the loop exited because the environment reported a terminal state
at that point. -/
theorem rollout_horizon_bound (env : EnvRollout) :
    (play_game env).1.length ≤ t_max ∧
    ((play_game env).1.length < t_max →
      env.endAfter (play_game env).1.length = true) := by
  constructor
  · have h := playGameLoop_length_le env (t_max+1) 0 0 (by omega)
    simpa [play_game] using h
  · intro hlt
    have h := playGameLoop_short_end env (t_max+1) 0 0
      (by simpa [play_game] using hlt) (by omega)
    simpa [play_game] using h

/-- An environment that becomes terminal after 3 outer steps, with zero
rewards; used to instantiate the bound theorem's implication. -/
def envEndsAt3 : EnvRollout :=
  { endAfter := fun k => decide (3 ≤ k), subReward := fun _ _ => 0, act := fun _ => 0 }

theorem rollout_horizon_bound_witness :
    (play_game envEndsAt3).1.length ≤ t_max ∧
    envEndsAt3.endAfter (play_game envEndsAt3).1.length = true :=
  ⟨(rollout_horizon_bound envEndsAt3).1,
   (rollout_horizon_bound envEndsAt3).2 (by decide)⟩

/-! ### Claim C2 -/

/-- An environment where every intermediate sub-step reward is 1 and no
state is terminal: every outer step contributes 4 = skip_num clipped
sub-rewards of 1. -/
def envAllOnes : EnvRollout :=
  { endAfter := fun _ => false, subReward := fun _ _ => 1, act := fun _ => 0 }

/-- C2 fails on the code: the running reward variable of play_game is
never reset between outer steps (line 213 reads reward += 0.0, a no-op,
where a reset was evidently intended), so the reward stored in the k-th
record is the cumulative clipped reward since the segment start, not the
sum over that single outer step.  With every sub-step reward 1, each
outer step's own clipped sum is 4, yet the recorded values are
4, 8, 12, ..., 40. -/
theorem recorded_reward_is_cumulative :
    ((play_game envAllOnes).1.map HistoryRecord.reward)
      = [4, 8, 12, 16, 20, 24, 28, 32, 36, 40] ∧
    outerStepRewardAdd envAllOnes 1 = 4 ∧
    ((play_game envAllOnes).1.map HistoryRecord.reward).getD 1 0
      ≠ outerStepRewardAdd envAllOnes 1 := by
  refine ⟨?_, ?_, ?_⟩ <;>
    norm_num [play_game, playGameLoop, envAllOnes, t_max, outerStepRewardAdd, skip_num,
      clipValue, List.range_succ]

/-! ### Claim C9 -/

/-- C9: the gradients handed to the shared store's apply step are the
element-wise clamp of the accumulator into the interval from -40 to 40:
elements above the bound map to 40, elements below map to -40, in-range
elements are unchanged, and every applied element lies in the interval. -/
theorem gradient_clipping_correct (grads : List ℚ) (x : ℚ) :
    (grad_clip < x → clipValue (-grad_clip) grad_clip x = grad_clip) ∧
    (x < -grad_clip → clipValue (-grad_clip) grad_clip x = -grad_clip) ∧
    (-grad_clip ≤ x → x ≤ grad_clip → clipValue (-grad_clip) grad_clip x = x) ∧
    (∀ y ∈ clipped_grads grads, -grad_clip ≤ y ∧ y ≤ grad_clip) ∧
    clipped_grads grads = grads.map (clipValue (-grad_clip) grad_clip) := by
  have hgc : (0:ℚ) ≤ grad_clip := by norm_num [grad_clip]
  refine ⟨?_, ?_, ?_, ?_, rfl⟩
  · intro h
    have hx : -grad_clip ≤ x := by linarith
    rw [clipValue, max_eq_left hx, min_eq_right (le_of_lt h)]
  · intro h
    have h1 : max x (-grad_clip) = -grad_clip := max_eq_right (le_of_lt h)
    rw [clipValue, h1, min_eq_left (by linarith)]
  · intro h1 h2
    rw [clipValue, max_eq_left h1, min_eq_left h2]
  · intro y hy
    rcases List.mem_map.mp hy with ⟨g, _, rfl⟩
    constructor
    · exact le_min (le_max_right g (-grad_clip)) (by norm_num [grad_clip])
    · exact min_le_right _ _

theorem gradient_clipping_correct_witness :
    clipValue (-grad_clip) grad_clip 50 = grad_clip ∧
    clipValue (-grad_clip) grad_clip (-50) = -grad_clip ∧
    clipValue (-grad_clip) grad_clip 3 = 3 ∧
    (∀ y ∈ clipped_grads [50, -50, 3], -grad_clip ≤ y ∧ y ≤ grad_clip) :=
  ⟨(gradient_clipping_correct [] 50).1 (by norm_num [grad_clip]),
   (gradient_clipping_correct [] (-50)).2.1 (by norm_num [grad_clip]),
   (gradient_clipping_correct [] 3).2.2.1 (by norm_num [grad_clip]) (by norm_num [grad_clip]),
   (gradient_clipping_correct [50, -50, 3] 0).2.2.2.1⟩

/-! ### Claim C1 -/

/-- C1 fails on the code: the outer-loop guard (run, lines 139-140)
compares the shared global step against self.t_max = 10, the rollout
horizon, not against the configured maximum global_t_max = 1e9 that
main.py passes (into the constructor's thread_id parameter, where it is
ignored).  At global step 10, with the stop flag unset and the global
step far below global_t_max, the worker does not begin another
iteration, though the claim says it must. -/
theorem loop_guard_uses_t_max :
    loopGuard 10 false = false ∧ 10 < global_t_max ∧
    loopGuard (t_max - 1) false = true := by
  refine ⟨by decide, by decide, by decide⟩

/-! ### Bootstrap and discounted returns (run, lines 149-165)

The value network is an external oracle from a state index to its value
estimate. -/

/-- Lines 149-152: the bootstrap seed r is 0 when play_game returned
last_state None (the segment ended in a terminal state), regardless of
the value network; otherwise it is the value estimate of the last
observed state. -/
def bootstrapR (lastState : Option Nat) (value : Nat → ℚ) : ℚ :=
  match lastState with
  | none => 0
  | some s => value s

/-- extract_history (lines 171-176): the stored action index becomes a
one-hot vector over the n actions. -/
def oneHot (n i : Nat) : List ℚ :=
  (List.range n).map (fun j => if j = i then 1 else 0)

/-- One entry of the parallel batches built on lines 154-164. -/
structure BatchEntry where
  state : Nat
  action : List ℚ
  Rret : ℚ
deriving DecidableEq

/-- The body of the backward loop (lines 157-164): walk the given list
(the history read from its last element down to its first), carrying the
running return r, appending one batch entry per step with r updated to
reward + gamma * r. -/
def backwardStep (g : ℚ) : ℚ → List HistoryRecord → List BatchEntry
  | _, [] => []
  | r, h :: rest =>
    { state := h.state, action := oneHot 4 h.action, Rret := h.reward + g * r } ::
      backwardStep g (h.reward + g * r) rest

/-- Lines 154-164 as a whole: the loop index i runs from
(t - 1) - t_start down to 0, i.e. over the reversed history. -/
def buildBatches (g r0 : ℚ) (history : List HistoryRecord) : List BatchEntry :=
  backwardStep g r0 history.reverse

/-- The computed per-step returns, read back in time order. -/
def timeReturns (g r0 : ℚ) (history : List HistoryRecord) : List ℚ :=
  ((buildBatches g r0 history).map BatchEntry.Rret).reverse

/-- Default record used only to state getD-based indexing. -/
def histDefault : HistoryRecord := { state := 0, action := 0, reward := 0 }

lemma backwardStep_length (g : ℚ) :
    ∀ (r : ℚ) (l : List HistoryRecord), (backwardStep g r l).length = l.length := by
  intro r l
  induction l generalizing r with
  | nil => rfl
  | cons h rest ih => simp [backwardStep, ih]

lemma backwardStep_pairs (g : ℚ) :
    ∀ (r : ℚ) (l : List HistoryRecord),
      (backwardStep g r l).map (fun b => (b.state, b.action))
        = l.map (fun h => (h.state, oneHot 4 h.action)) := by
  intro r l
  induction l generalizing r with
  | nil => rfl
  | cons h rest ih => simp [backwardStep, ih]

/-- Appending a final step to the history seeds the backward recursion
with that step's return. -/
lemma timeReturns_concat (g r0 : ℚ) (l : List HistoryRecord) (h : HistoryRecord) :
    timeReturns g r0 (l ++ [h])
      = timeReturns g (h.reward + g * r0) l ++ [h.reward + g * r0] := by
  simp [timeReturns, buildBatches, backwardStep]

lemma timeReturns_length (g r0 : ℚ) (l : List HistoryRecord) :
    (timeReturns g r0 l).length = l.length := by
  simp [timeReturns, buildBatches, backwardStep_length]

/-- The backward recursion, indexed in time order. -/
lemma timeReturns_getD (g : ℚ) (hist : List HistoryRecord) : ∀ r0 : ℚ,
    (0 < hist.length →
      (timeReturns g r0 hist).getD (hist.length - 1) 0
        = (hist.getD (hist.length - 1) histDefault).reward + g * r0) ∧
    (∀ i, i + 1 < hist.length →
      (timeReturns g r0 hist).getD i 0
        = (hist.getD i histDefault).reward
          + g * (timeReturns g r0 hist).getD (i+1) 0) := by
  induction hist using List.reverseRecOn with
  | nil =>
    intro r0
    exact ⟨fun h => absurd h (by simp), fun i hi => absurd hi (by simp)⟩
  | append_singleton l a ih =>
    intro r0
    have hT := timeReturns_concat g r0 l a
    have hlen : (timeReturns g (a.reward + g * r0) l).length = l.length :=
      timeReturns_length g (a.reward + g * r0) l
    have hlast : (timeReturns g (a.reward + g * r0) l ++ [a.reward + g * r0]).getD
        l.length 0 = a.reward + g * r0 := by
      have e := List.getD_append_right (timeReturns g (a.reward + g * r0) l)
        [a.reward + g * r0] 0 l.length (le_of_eq hlen)
      rw [e, hlen, Nat.sub_self]
      rfl
    constructor
    · intro _
      have hidx : (l ++ [a]).length - 1 = l.length := by simp
      have ea : (l ++ [a]).getD l.length histDefault = a := by
        have e := List.getD_append_right l [a] histDefault l.length (le_refl _)
        rw [e, Nat.sub_self]
        rfl
      rw [hidx, hT, hlast, ea]
    · intro i hi
      have hi' : i + 1 < l.length + 1 := by simpa using hi
      have e3 : (l ++ [a]).getD i histDefault = l.getD i histDefault :=
        List.getD_append l [a] histDefault i (by omega)
      by_cases hcase : i + 1 < l.length
      · have e1 : (timeReturns g (a.reward + g * r0) l ++ [a.reward + g * r0]).getD i 0
            = (timeReturns g (a.reward + g * r0) l).getD i 0 :=
          List.getD_append _ _ _ _ (by rw [hlen]; omega)
        have e2 : (timeReturns g (a.reward + g * r0) l ++ [a.reward + g * r0]).getD (i+1) 0
            = (timeReturns g (a.reward + g * r0) l).getD (i+1) 0 :=
          List.getD_append _ _ _ _ (by rw [hlen]; omega)
        rw [hT, e1, e2, e3]
        exact (ih (a.reward + g * r0)).2 i hcase
      · have hieq : i + 1 = l.length := by omega
        have hil : 0 < l.length := by omega
        have e1 : (timeReturns g (a.reward + g * r0) l ++ [a.reward + g * r0]).getD i 0
            = (timeReturns g (a.reward + g * r0) l).getD i 0 :=
          List.getD_append _ _ _ _ (by rw [hlen]; omega)
        have e2 : (timeReturns g (a.reward + g * r0) l ++ [a.reward + g * r0]).getD (i+1) 0
            = a.reward + g * r0 := by
          rw [hieq]
          exact hlast
        rw [hT, e1, e2, e3]
        have h3 := (ih (a.reward + g * r0)).1 hil
        have hidx2 : l.length - 1 = i := by omega
        rw [hidx2] at h3
        exact h3

/-- The concrete history of the spec example: three steps, each with
reward 1. -/
def histOnes3 : List HistoryRecord :=
  [{ state := 0, action := 0, reward := 1 },
   { state := 1, action := 0, reward := 1 },
   { state := 2, action := 0, reward := 1 }]

/-! ### Claim C7 -/

/-- C7: the bootstrap seed equals 0 on terminal segments no matter what
the value network outputs, and the value estimate of the last observed
state otherwise; the computed returns satisfy the backward recursion
with gamma = 0.99 read in time order; each batch entry carries its own
step's state and one-hot action; and rewards [1, 1, 1] with seed 0 give
time-ordered returns [2.9701, 1.99, 1.0]. -/
theorem return_recursion_correct (hist : List HistoryRecord) (value : Nat → ℚ) (r0 : ℚ) :
    bootstrapR none value = 0 ∧
    (∀ s, bootstrapR (some s) value = value s) ∧
    (timeReturns gamma r0 hist).length = hist.length ∧
    (0 < hist.length →
      (timeReturns gamma r0 hist).getD (hist.length - 1) 0
        = (hist.getD (hist.length - 1) histDefault).reward + gamma * r0) ∧
    (∀ i, i + 1 < hist.length →
      (timeReturns gamma r0 hist).getD i 0
        = (hist.getD i histDefault).reward
          + gamma * (timeReturns gamma r0 hist).getD (i+1) 0) ∧
    (buildBatches gamma r0 hist).map (fun b => (b.state, b.action))
      = hist.reverse.map (fun h => (h.state, oneHot 4 h.action)) ∧
    timeReturns gamma 0 histOnes3 = [2.9701, 1.99, 1] := by
  refine ⟨rfl, fun s => rfl, timeReturns_length gamma r0 hist,
    (timeReturns_getD gamma hist r0).1, (timeReturns_getD gamma hist r0).2,
    ?_, ?_⟩
  · simp [buildBatches, backwardStep_pairs]
  · norm_num [timeReturns, buildBatches, backwardStep, histOnes3, gamma]

theorem return_recursion_correct_witness :
    (timeReturns gamma 0 histOnes3).getD (histOnes3.length - 1) 0
      = (histOnes3.getD (histOnes3.length - 1) histDefault).reward + gamma * 0 ∧
    (timeReturns gamma 0 histOnes3).getD 0 0
      = (histOnes3.getD 0 histDefault).reward
        + gamma * (timeReturns gamma 0 histOnes3).getD 1 0 ∧
    bootstrapR none (fun _ => 5) = 0 :=
  ⟨(return_recursion_correct histOnes3 (fun _ => 5) 0).2.2.2.1 (by norm_num [histOnes3]),
   (return_recursion_correct histOnes3 (fun _ => 5) 0).2.2.2.2.1 0 (by norm_num [histOnes3]),
   (return_recursion_correct histOnes3 (fun _ => 5) 0).1⟩

/-! ### Loss construction (prepare_loss_operations, lines 63-80; line 37)

The network forward pass is external: a batch is a list of examples,
each carrying the policy distribution pi over the 4 actions and the
value estimate V produced by the network on that example's state,
together with the fed one-hot action vector and the fed return R.  The
logarithm is the numerical engine's tf.log, an external real function;
the loss is a symbolic expression in it, so it is a function parameter
of each definition, and the loss expressions are facts about every
interpretation of that parameter. -/

structure LossExample where
  pi : List ℚ
  action : List ℚ
  R : ℚ
  V : ℚ
deriving DecidableEq

/-- tf.reduce_sum(tf.mul(xs, ys), reduction_indices=1): element-wise
product, then sum. -/
def dotSum (xs ys : List ℚ) : ℚ := (List.zipWith (fun a b => a * b) xs ys).sum

/-- Lines 67-68: entropy = reduce_sum(pi * log(pi + eps), 1).  Note the
code carries no leading minus: this is the negative of the standard
entropy of the distribution. -/
def entropyTerm (log : ℚ → ℚ) (ex : LossExample) : ℚ :=
  (ex.pi.map (fun p => p * log (p + eps))).sum

/-- Line 70: pi_a_s = reduce_sum(pi * action_input, 1): the one-hot
action vector selects the probability of the taken action. -/
def pi_a_s (ex : LossExample) : ℚ := dotSum ex.pi ex.action

/-- Line 71: log_pi_a_s = tf.log(pi_a_s).  No eps is added to this
argument. -/
def log_pi_a_s (log : ℚ → ℚ) (ex : LossExample) : ℚ := log (pi_a_s ex)

/-- Line 73: advantage = reward_input - value. -/
def advantage (ex : LossExample) : ℚ := ex.R - ex.V

/-- Line 77: policy_loss =
- reduce_sum(log_pi_a_s * advantage) + reduce_sum(entropy * beta). -/
def policy_loss (log : ℚ → ℚ) (batch : List LossExample) : ℚ :=
  -(batch.map (fun ex => log_pi_a_s log ex * advantage ex)).sum
    + (batch.map (fun ex => entropyTerm log ex * beta)).sum

/-- Line 78: value_loss = reduce_sum(square(advantage)). -/
def value_loss (batch : List LossExample) : ℚ :=
  (batch.map (fun ex => advantage ex ^ 2)).sum

/-- Line 37: total_loss = policy_loss + value_loss * 0.5; this is the
quantity whose gradients are accumulated (line 38). -/
def total_loss (log : ℚ → ℚ) (batch : List LossExample) : ℚ :=
  policy_loss log batch + value_loss batch * (1/2)

/-- Modelled from the spec (claim C3): the standard entropy of the
policy at one example, minus the sum of p * log p, computed here on the
same eps-guarded log argument the code uses, so that only the claimed
sign of the entropy term is at stake. -/
def standardEntropy (log : ℚ → ℚ) (ex : LossExample) : ℚ :=
  -(ex.pi.map (fun p => p * log (p + eps))).sum

/-- Modelled from the spec (claim C3): policy loss written as the claim
states it, with the entropy bonus entering as plus beta times the
standard entropy. -/
def claimedPolicyLoss (log : ℚ → ℚ) (batch : List LossExample) : ℚ :=
  -(batch.map (fun ex => log_pi_a_s log ex * advantage ex)).sum
    + beta * (batch.map (standardEntropy log)).sum

/-- Modelled from the spec (claim C3): total loss as the claim states
it. -/
def claimedTotalLoss (log : ℚ → ℚ) (batch : List LossExample) : ℚ :=
  claimedPolicyLoss log batch + value_loss batch * (1/2)

lemma sum_map_mul_const {α : Type} (l : List α) (f : α → ℚ) (c : ℚ) :
    (l.map (fun x => f x * c)).sum = (l.map f).sum * c := by
  induction l with
  | nil => simp
  | cons x xs ih => simp [ih]; ring

lemma sum_map_neg {α : Type} (l : List α) (f : α → ℚ) :
    (l.map (fun x => -(f x))).sum = -((l.map f).sum) := by
  induction l with
  | nil => simp
  | cons x xs ih => simp [ih]; ring

/-! ### Claim C3 -/

/-- C3 as stated fails on the code: with the logarithm interpreted as
any function under which the entropy sums do not vanish (here the
identity function, on a batch whose single example has a deterministic
policy), the code's loss differs from the claimed formula, because the
code's entropy term is the negative of the standard entropy. -/
theorem loss_entropy_sign_counterexample :
    total_loss (fun x => x) [{ pi := [1, 0, 0, 0], action := [1, 0, 0, 0], R := 1, V := 0 }]
      ≠ claimedTotalLoss (fun x => x)
        [{ pi := [1, 0, 0, 0], action := [1, 0, 0, 0], R := 1, V := 0 }] := by
  norm_num [total_loss, claimedTotalLoss, policy_loss, claimedPolicyLoss, entropyTerm,
    standardEntropy, log_pi_a_s, pi_a_s, dotSum, advantage, value_loss, beta, eps]

/-- C3 amended: the accumulated loss equals policy loss plus one half of
the value loss, where the policy loss is the negated sum of
log pi(a|s) times the advantage R - V, MINUS beta = 0.01 times the sum
of the standard entropies (the entropy term enters with the standard
entropy negated, so minimising the loss still rewards high-entropy
policies), and the value loss is the sum of squared advantages. -/
theorem loss_formula_correct (log : ℚ → ℚ) (batch : List LossExample) :
    total_loss log batch
      = -((batch.map (fun ex => log (pi_a_s ex) * (ex.R - ex.V))).sum)
        - beta * (batch.map (standardEntropy log)).sum
        + (1/2) * (batch.map (fun ex => (ex.R - ex.V) ^ 2)).sum := by
  have h1 : (batch.map (fun ex => entropyTerm log ex * beta)).sum
      = (batch.map (fun ex => entropyTerm log ex)).sum * beta :=
    sum_map_mul_const batch (fun ex => entropyTerm log ex) beta
  have h2 : (batch.map (standardEntropy log)).sum
      = -((batch.map (fun ex => entropyTerm log ex)).sum) := by
    have := sum_map_neg batch (fun ex => entropyTerm log ex)
    simpa [standardEntropy, entropyTerm] using this
  rw [total_loss, policy_loss, value_loss, h1, h2]
  simp only [log_pi_a_s, advantage]
  ring

/-- A one-example batch with a deterministic policy. -/
def detBatch : List LossExample :=
  [{ pi := [1, 0, 0, 0], action := [1, 0, 0, 0], R := 1, V := 0 }]

theorem loss_formula_correct_witness :
    total_loss (fun x => x) detBatch
      = -((detBatch.map (fun ex => (fun x => x) (pi_a_s ex) * (ex.R - ex.V))).sum)
        - beta * (detBatch.map (standardEntropy (fun x => x))).sum
        + (1/2) * (detBatch.map (fun ex => (ex.R - ex.V) ^ 2)).sum :=
  loss_formula_correct (fun x => x) detBatch

/-! ### Claim C4 -/

/-- The arguments handed to the two tf.log call sites, per batch: line
67 takes logs of every policy probability shifted by eps; line 71 takes
the log of pi_a_s with no shift. -/
def entropyLogArguments (batch : List LossExample) : List ℚ :=
  (batch.map (fun ex => ex.pi.map (fun p => p + eps))).flatten

/-- The arguments of the line-71 log, one per example: the raw selected
probability. -/
def actionLogArguments (batch : List LossExample) : List ℚ :=
  batch.map pi_a_s

/-- All logarithm arguments occurring in the loss computation. -/
def logArguments (batch : List LossExample) : List ℚ :=
  entropyLogArguments batch ++ actionLogArguments batch

/-- C4 fails on the code: for a batch whose one example selects (by
one-hot action) an action of policy probability exactly 0, the argument
of the line-71 logarithm is exactly 0, so a log of zero is evaluated;
moreover the loss genuinely depends on the log's value at 0: two log
interpretations that agree everywhere except at 0 give different
losses. -/
theorem log_of_zero_probability_counterexample :
    (0 : ℚ) ∈ logArguments [{ pi := [0, 1, 0, 0], action := [1, 0, 0, 0], R := 1, V := 0 }] ∧
    pi_a_s { pi := [0, 1, 0, 0], action := [1, 0, 0, 0], R := 1, V := 0 } = 0 ∧
    policy_loss (fun _ => 0)
        [{ pi := [0, 1, 0, 0], action := [1, 0, 0, 0], R := 1, V := 0 }]
      ≠ policy_loss (fun x => if x = 0 then 1 else 0)
        [{ pi := [0, 1, 0, 0], action := [1, 0, 0, 0], R := 1, V := 0 }] := by
  refine ⟨?_, ?_, ?_⟩ <;>
    norm_num [logArguments, entropyLogArguments, actionLogArguments, pi_a_s, dotSum,
      policy_loss, entropyTerm, log_pi_a_s, advantage, beta, eps]

/-- C4 amended: only the entropy-term logarithms are guarded: for any
batch of nonnegative probabilities, every argument of a line-67 log is
at least eps = 1e-10, while the line-71 policy-gradient log is applied
to the raw pi_a_s with no additive constant. -/
theorem eps_guard_location (batch : List LossExample)
    (hnn : ∀ ex ∈ batch, ∀ p ∈ ex.pi, 0 ≤ p) :
    (∀ x ∈ entropyLogArguments batch, eps ≤ x) ∧
    (∀ log : ℚ → ℚ, ∀ ex ∈ batch, log_pi_a_s log ex = log (pi_a_s ex)) := by
  constructor
  · intro x hx
    rcases List.mem_flatten.mp hx with ⟨l, hl, hxl⟩
    rcases List.mem_map.mp hl with ⟨ex, hex, rfl⟩
    rcases List.mem_map.mp hxl with ⟨p, hp, rfl⟩
    have := hnn ex hex p hp
    linarith
  · intro _ _ _
    rfl

theorem eps_guard_location_witness :
    (∀ x ∈ entropyLogArguments
        [{ pi := [0, 1, 0, 0], action := [1, 0, 0, 0], R := 1, V := 0 }], eps ≤ x) ∧
    (∀ log : ℚ → ℚ, ∀ ex ∈
        [{ pi := [0, 1, 0, 0], action := [1, 0, 0, 0], R := 1, V := 0 }],
      log_pi_a_s log ex = log (pi_a_s ex)) :=
  eps_guard_location [{ pi := [0, 1, 0, 0], action := [1, 0, 0, 0], R := 1, V := 0 }]
    (by norm_num)

/-! ### Interrupt handling (actor_learner_thread.py lines 41-42, 263-265;
main.py lines 128-135)

Each worker owns a boolean stop flag (the one the outer-loop guard on
line 140 reads) and, per main.py, an attribute kill_received that the
interrupt branch writes.  Workers are modelled by their flag pairs, in
construction order. -/

structure WorkerFlags where
  stop : Bool
  kill_received : Bool
deriving DecidableEq

/-- All workers as constructed: both flags initially false (stop on
line 16; kill_received is first created by main.py's interrupt branch
and read nowhere). -/
def initWorkers (n : Nat) : List WorkerFlags :=
  List.replicate n { stop := false, kill_received := false }

/-- signal_handler (lines 263-265), bound to worker i: it sets
self.stop = True on that one worker only. -/
def signal_handler (i : Nat) (ws : List WorkerFlags) : List WorkerFlags :=
  ws.mapIdx (fun j w => if j = i then { w with stop := true } else w)

/-- Python keeps a single process-wide SIGINT handler; every
ActorLearnerThread.__init__ executes signal.signal(SIGINT,
self.signal_handler) (line 42), each call replacing the previous
registration, so after main.py constructs workers 0..n-1 the handler a
SIGINT actually invokes is worker n-1's. -/
def registeredSigintWorker (n : Nat) : Nat := n - 1

/-- main.py lines 128-135: the KeyboardInterrupt branch sets
thread.kill_received = True on every thread; it writes no stop flag. -/
def mainKeyboardInterrupt (ws : List WorkerFlags) : List WorkerFlags :=
  ws.map (fun w => { w with kill_received := true })

/-! ### Claim C5 -/

/-- C5 fails on the code: with two workers, delivering SIGINT through
the one handler actually registered (the last-constructed worker's)
leaves worker 0's stop flag, the flag its outer-loop guard reads,
unset; and the coordinator's KeyboardInterrupt branch raises only
kill_received, an attribute no worker loop reads, leaving every stop
flag unset.  Worker 0 therefore still passes the loop guard after the
interrupt. -/
theorem interrupt_misses_workers :
    (signal_handler (registeredSigintWorker 2) (initWorkers 2)).map WorkerFlags.stop
      = [false, true] ∧
    (mainKeyboardInterrupt (initWorkers 2)).map WorkerFlags.stop = [false, false] ∧
    loopGuard 0
      ((signal_handler (registeredSigintWorker 2) (initWorkers 2)).getD 0
        { stop := false, kill_received := false }).stop = true := by
  refine ⟨by decide, by decide, by decide⟩

/-! ### One iteration of the outer loop (run, lines 141-168)

The autodiff engine is external: gradOf gives the gradient contribution
of one batch entry, the batch gradient being their sum (the loss is a
sum over batch entries and tf.gradients is additive in it; an empty
batch contributes the zero gradient); optim is the shared optimizer's
update rule, and each apply_gradients call advances the shared counter
by exactly one (prepare_apply_gradients, lines 129-134).  The parameter
vector and the gradient accumulator are abstracted to one
representative coordinate. -/

inductive RunEvent where
  | resetGradients
  | syncParameters
  | setTStart
  | buildInitialState
  | envReset
  | playGameStep
  | bootstrapStep
  | returnCompute
  | accumulateStep
  | applyStep
deriving DecidableEq

structure IterState where
  t : Nat
  globalStep : Nat
  localGrads : ℚ
  localParams : ℚ
  sharedParams : ℚ
deriving DecidableEq

structure IterResult where
  final : IterState
  trace : List RunEvent
  history : List HistoryRecord
  bootVal : ℚ
  batches : List BatchEntry
deriving DecidableEq

/-- One iteration of run's outer loop, with its statements in the order
they execute: reset_gradients (line 141), sync_network_parameters (line
142), t_start = t (line 143), get_initial_state (line 144) - the
warm-up, which acts on the environment - then environment.reset() (line
146), play_game (line 147), the bootstrap (lines 149-152), the backward
return loop (lines 154-164), accumulate_gradients (line 166) and
update_shared_gradients (line 168). -/
def runIteration (env : EnvRollout) (value : Nat → ℚ) (gradOf : BatchEntry → ℚ)
    (optim : ℚ → ℚ → ℚ) (s : IterState) : IterResult :=
  let s1 : IterState := { s with localGrads := 0 }
  let s2 : IterState := { s1 with localParams := s1.sharedParams }
  let hist := (play_game env).1
  let r0 := bootstrapR (play_game env).2 value
  let batches := buildBatches gamma r0 hist
  let s3 : IterState := { s2 with
    t := s2.t + hist.length,
    localGrads := s2.localGrads + (batches.map gradOf).sum }
  let s4 : IterState := { s3 with
    sharedParams := optim s3.sharedParams (clipValue (-grad_clip) grad_clip s3.localGrads),
    globalStep := s3.globalStep + 1 }
  { final := s4,
    trace := [RunEvent.resetGradients, RunEvent.syncParameters, RunEvent.setTStart,
      RunEvent.buildInitialState, RunEvent.envReset, RunEvent.playGameStep,
      RunEvent.bootstrapStep, RunEvent.returnCompute, RunEvent.accumulateStep,
      RunEvent.applyStep],
    history := hist,
    bootVal := r0,
    batches := batches }

/-- Modelled from the spec (claim C6): the order the claim states for
the start of an iteration: synchronize first, then reset the gradient
accumulator, then reset the environment, then build the warm-up
observation, and only then roll out. -/
def claimedIterationOrder : List RunEvent :=
  [RunEvent.syncParameters, RunEvent.resetGradients, RunEvent.envReset,
   RunEvent.buildInitialState, RunEvent.playGameStep, RunEvent.bootstrapStep,
   RunEvent.returnCompute, RunEvent.accumulateStep, RunEvent.applyStep]

/-- A value oracle, gradient oracle, optimizer and start state used to
instantiate concrete iterations. -/
def zeroValue : Nat → ℚ := fun _ => 0

def zeroGrad : BatchEntry → ℚ := fun _ => 0

def sgdOptim : ℚ → ℚ → ℚ := fun p g => p - g

def iterState0 : IterState :=
  { t := 1, globalStep := 0, localGrads := 0, localParams := 0, sharedParams := 0 }

/-! ### Claim C6 -/

/-- C6 fails on the code: in a concrete iteration the first event is
the gradient-accumulator reset, not the synchronization the claim says
always runs first; and the warm-up observation is built before the
environment reset, not after it; the executed order is not the claimed
order. -/
theorem iteration_order_counterexample :
    (runIteration envEndsAt3 zeroValue zeroGrad sgdOptim iterState0).trace.head?
      = some RunEvent.resetGradients ∧
    RunEvent.resetGradients ≠ RunEvent.syncParameters ∧
    (runIteration envEndsAt3 zeroValue zeroGrad sgdOptim iterState0).trace.indexOf
        RunEvent.buildInitialState
      < (runIteration envEndsAt3 zeroValue zeroGrad sgdOptim iterState0).trace.indexOf
        RunEvent.envReset ∧
    (runIteration envEndsAt3 zeroValue zeroGrad sgdOptim iterState0).trace
      ≠ claimedIterationOrder := by
  refine ⟨by decide, by decide, by decide, by decide⟩

/-- C6 amended: in every iteration the steps run in the source order:
the gradient accumulator is reset first, then the local replica is
synchronized from the shared store, then t_start is set, then the
warm-up initial observation is built while the environment is still in
its pre-reset state, then the environment is reset, and only then does
the rollout begin; after the iteration the local replica holds the
shared parameters it synchronized. -/
theorem iteration_order_actual (env : EnvRollout) (value : Nat → ℚ)
    (gradOf : BatchEntry → ℚ) (optim : ℚ → ℚ → ℚ) (s : IterState) :
    (runIteration env value gradOf optim s).trace
      = [RunEvent.resetGradients, RunEvent.syncParameters, RunEvent.setTStart,
         RunEvent.buildInitialState, RunEvent.envReset, RunEvent.playGameStep,
         RunEvent.bootstrapStep, RunEvent.returnCompute, RunEvent.accumulateStep,
         RunEvent.applyStep] ∧
    (runIteration env value gradOf optim s).final.localParams = s.sharedParams :=
  ⟨rfl, rfl⟩

theorem iteration_order_actual_witness :
    (runIteration envAllOnes zeroValue zeroGrad sgdOptim iterState0).trace
      = [RunEvent.resetGradients, RunEvent.syncParameters, RunEvent.setTStart,
         RunEvent.buildInitialState, RunEvent.envReset, RunEvent.playGameStep,
         RunEvent.bootstrapStep, RunEvent.returnCompute, RunEvent.accumulateStep,
         RunEvent.applyStep] ∧
    (runIteration envAllOnes zeroValue zeroGrad sgdOptim iterState0).final.localParams
      = iterState0.sharedParams :=
  iteration_order_actual envAllOnes zeroValue zeroGrad sgdOptim iterState0

/-! ### Claim C10 -/

/-- C10: every completed iteration performs exactly one apply, advancing
the global step by one; and when the environment is terminal at the very
start of the rollout, the history is empty, the bootstrap is 0, the
batches are empty, the accumulate step still runs, the accumulator keeps
its reset value 0, and the apply step still runs, handing the optimizer
the clipped contents of the freshly reset (unchanged) accumulator. -/
theorem one_apply_per_iteration (env : EnvRollout) (value : Nat → ℚ)
    (gradOf : BatchEntry → ℚ) (optim : ℚ → ℚ → ℚ) (s : IterState) :
    (runIteration env value gradOf optim s).trace.count RunEvent.applyStep = 1 ∧
    (runIteration env value gradOf optim s).final.globalStep = s.globalStep + 1 ∧
    (env.endAfter 0 = true →
      (runIteration env value gradOf optim s).history = [] ∧
      (runIteration env value gradOf optim s).bootVal = 0 ∧
      (runIteration env value gradOf optim s).batches = [] ∧
      RunEvent.accumulateStep ∈ (runIteration env value gradOf optim s).trace ∧
      (runIteration env value gradOf optim s).final.localGrads = 0 ∧
      (runIteration env value gradOf optim s).final.sharedParams
        = optim s.sharedParams (clipValue (-grad_clip) grad_clip 0)) := by
  refine ⟨rfl, rfl, fun h => ?_⟩
  have hhist : (play_game env).1 = [] := by
    simp [play_game, playGameLoop, h]
  have hlast : (play_game env).2 = none := by
    simp [play_game, playGameLoop, h]
  refine ⟨?_, ?_, ?_, ?_, ?_, ?_⟩ <;>
    simp [runIteration, hhist, hlast, bootstrapR, buildBatches, backwardStep]

/-- An environment that is terminal immediately after reset. -/
def envTerminalNow : EnvRollout :=
  { endAfter := fun _ => true, subReward := fun _ _ => 0, act := fun _ => 0 }

theorem one_apply_per_iteration_witness :
    (runIteration envTerminalNow zeroValue zeroGrad sgdOptim iterState0).history = [] ∧
    (runIteration envTerminalNow zeroValue zeroGrad sgdOptim iterState0).bootVal = 0 ∧
    (runIteration envTerminalNow zeroValue zeroGrad sgdOptim iterState0).batches = [] ∧
    RunEvent.accumulateStep
      ∈ (runIteration envTerminalNow zeroValue zeroGrad sgdOptim iterState0).trace ∧
    (runIteration envTerminalNow zeroValue zeroGrad sgdOptim iterState0).final.localGrads
      = 0 ∧
    (runIteration envTerminalNow zeroValue zeroGrad sgdOptim iterState0).final.sharedParams
      = sgdOptim iterState0.sharedParams (clipValue (-grad_clip) grad_clip 0) :=
  (one_apply_per_iteration envTerminalNow zeroValue zeroGrad sgdOptim iterState0).2.2 rfl

end A3C
